import Mathlib

/-!
Verification development for the notify-hub repository (`src/monitor_api.py`).

The Python module is shallowly embedded below.  Pure helpers become Lean
functions on `String`/`List`; the stateful per-target cycle (`run_once`)
becomes a function from an explicit store (target id → stored file) to a new
store together with the ordered trace of observable events (state saves,
`notify_all` invocations, webhook posts).  External effects (network fetches,
wall-clock time, webhook POST outcomes, and CPython's hash-dependent set
iteration order) are supplied by an explicit `World` record, so every
definition stays executable and the theorems quantify over those inputs.
-/

/-! ## Python string helpers

`safe_text` in the source is
`str(s).replace("\r", " ").replace("\n", " ").strip()`; since both patterns
are single characters the two `replace` calls are a character map, and
`strip()` drops leading/trailing whitespace.  Strings are modelled by their
code-point sequences (`String.data`), matching Python `str` semantics for
slicing, `in`, and `len`. -/

def pyWhitespace (c : Char) : Bool :=
  c == ' ' || c == '\t' || c == '\n' || c == '\r' || c == '\x0b' || c == '\x0c'

def pyStrip (s : String) : String :=
  String.mk (((s.data.dropWhile pyWhitespace).reverse.dropWhile pyWhitespace).reverse)

def safe_text (s : String) : String :=
  pyStrip (String.mk (s.data.map (fun c => if c == '\r' || c == '\n' then ' ' else c)))

/-- Python `s.lower()` (ASCII range; the keyword tables only need ASCII). -/
def pyLower (s : String) : String :=
  String.mk (s.data.map Char.toLower)

/-- Python slicing `s[:n]` (by code points). -/
def pyTakeStr (n : Nat) (s : String) : String :=
  String.mk (s.data.take n)

/-- Python `a or b` on strings: `b` when `a` is empty, else `a`. -/
def pyOr (a b : String) : String :=
  if a == "" then b else a

/-- `leadMatch k l` : does `k` match the front of `l`? (helper for `in`). -/
def leadMatch : List Char → List Char → Bool
  | [], _ => true
  | _ :: _, [] => false
  | a :: as, b :: bs => a == b && leadMatch as bs

/-- `subMatchL k l` : does `k` occur contiguously inside `l`? -/
def subMatchL (k : List Char) : List Char → Bool
  | [] => k.isEmpty
  | b :: bs => leadMatch k (b :: bs) || subMatchL k bs

/-- Python `k in s` for strings: contiguous substring test. -/
def strHasSub (k s : String) : Bool :=
  subMatchL k.data s.data

/-! ## SHA-1 (`hashlib.sha1(s.encode("utf-8")).hexdigest()`)

Machine words are `Nat` reduced mod `2 ^ 32`.  The claims never unfold the
hash; it is included so that `sha1` is the honest function from the source. -/

def utf8Char (c : Char) : List Nat :=
  let n := c.toNat
  if n < 128 then [n]
  else if n < 2048 then [192 + n / 64, 128 + n % 64]
  else if n < 65536 then [224 + n / 4096, 128 + (n / 64) % 64, 128 + n % 64]
  else [240 + n / 262144, 128 + (n / 4096) % 64, 128 + (n / 64) % 64, 128 + n % 64]

def utf8Bytes (s : String) : List Nat :=
  s.data.flatMap utf8Char

def w32 (n : Nat) : Nat := n % 4294967296

def rotl (k x : Nat) : Nat := w32 (x * 2 ^ k + x / 2 ^ (32 - k))

def beBytes : Nat → Nat → List Nat
  | 0, _ => []
  | k + 1, n => beBytes k (n / 256) ++ [n % 256]

def sha1Pad (msg : List Nat) : List Nat :=
  msg ++ [128] ++ List.replicate ((119 - msg.length % 64) % 64) 0
      ++ beBytes 8 (msg.length * 8)

def toWords : List Nat → List Nat
  | b0 :: b1 :: b2 :: b3 :: rest =>
      (((b0 * 256 + b1) * 256 + b2) * 256 + b3) :: toWords rest
  | _ => []

def toBlocksAux : Nat → List Nat → List (List Nat)
  | 0, _ => []
  | _ + 1, [] => []
  | fuel + 1, ws => ws.take 16 :: toBlocksAux fuel (ws.drop 16)

def toBlocks (ws : List Nat) : List (List Nat) :=
  toBlocksAux ws.length ws

def extendWords (ws : List Nat) : Nat → List Nat
  | 0 => ws
  | k + 1 =>
    let prev := extendWords ws k
    let m := prev.length
    prev ++ [rotl 1 ((prev.getD (m - 3) 0) ^^^ (prev.getD (m - 8) 0) ^^^
                     (prev.getD (m - 14) 0) ^^^ (prev.getD (m - 16) 0))]

def sha1F (t b c d : Nat) : Nat :=
  if t < 20 then (b &&& c) ||| ((b ^^^ 4294967295) &&& d)
  else if t < 40 then b ^^^ c ^^^ d
  else if t < 60 then (b &&& c) ||| (b &&& d) ||| (c &&& d)
  else b ^^^ c ^^^ d

def sha1K (t : Nat) : Nat :=
  if t < 20 then 1518500249
  else if t < 40 then 1859775393
  else if t < 60 then 2400959708
  else 3395469782

def sha1Rounds (t : Nat) (st : Nat × Nat × Nat × Nat × Nat) :
    List Nat → Nat × Nat × Nat × Nat × Nat
  | [] => st
  | wt :: rest =>
    let a := st.1; let b := st.2.1; let c := st.2.2.1; let d := st.2.2.2.1; let e := st.2.2.2.2
    let tmp := w32 (rotl 5 a + sha1F t b c d + e + sha1K t + wt)
    sha1Rounds (t + 1) (tmp, a, rotl 30 b, c, d) rest

def sha1Blocks (h : Nat × Nat × Nat × Nat × Nat) :
    List (List Nat) → Nat × Nat × Nat × Nat × Nat
  | [] => h
  | blk :: rest =>
    let r := sha1Rounds 0 h (extendWords blk 64)
    sha1Blocks (w32 (h.1 + r.1), w32 (h.2.1 + r.2.1), w32 (h.2.2.1 + r.2.2.1),
                w32 (h.2.2.2.1 + r.2.2.2.1), w32 (h.2.2.2.2 + r.2.2.2.2)) rest

def hexChar (n : Nat) : Char :=
  if n < 10 then Char.ofNat (48 + n) else Char.ofNat (87 + n)

def hex8 (n : Nat) : List Char :=
  (List.range 8).map (fun i => hexChar ((n / 16 ^ (7 - i)) % 16))

def sha1 (s : String) : String :=
  let h := sha1Blocks (1732584193, 4023233417, 2562383102, 271733878, 3285377520)
             (toBlocks (toWords (sha1Pad (utf8Bytes s))))
  String.mk (hex8 h.1 ++ hex8 h.2.1 ++ hex8 h.2.2.1 ++ hex8 h.2.2.2.1 ++ hex8 h.2.2.2.2)

/-! ## Data model

`Item` is the normalized dict every fetcher produces (fixed keys `id`,
`title`, `url`, `summary`, `published`, `source`).  `Target` is one entry of
`cfg["targets"]`; `title?` models `target.get("title", tid)` and
`important_keywords` models `target.get("important_keywords") or []`.
`PyState` is the persisted per-target JSON record. -/

structure Item where
  id : String
  title : String
  url : String
  summary : String
  published : String
  source : String
deriving DecidableEq

structure Target where
  id : String
  kind : String
  title? : Option String
  url : String
  max_items : Nat
  important_keywords : List String
deriving DecidableEq

structure PyState where
  seen_ids : List String
  last_run : Option String
deriving DecidableEq

/-- One persisted state file: absent, present but not valid JSON (reading it
raises in `json.load`), or a well-formed record. -/
inductive StoredFile where
  | missing
  | corrupt (msg : String)
  | valid (st : PyState)
deriving DecidableEq

def StoredFile.isCorrupt : StoredFile → Bool
  | .corrupt _ => true
  | _ => false

/-- `load_state`: a missing file yields `{"seen_ids": []}`; a present file is
`json.load`ed, which raises on corrupt contents (modelled as `.error`). -/
def load_state : StoredFile → Except String PyState
  | .missing => .ok { seen_ids := [], last_run := none }
  | .corrupt msg => .error msg
  | .valid st => .ok st

/-! ## Feed adapter (`fetch_rss`)

The adapter is embedded from the parsed feed onward: `RawEntry` is one
`feedparser` entry, each field being `getattr(e, field, "")`. -/

structure RawEntry where
  id : String
  link : String
  title : String
  summary : String
  published : String
  updated : String
deriving DecidableEq

def rssItem (e : RawEntry) : Item :=
  let link := safe_text e.link
  let title := safe_text e.title
  let summary := pyTakeStr 280 (safe_text e.summary)
  let published := safe_text (pyOr e.published e.updated)
  let entry_id := pyOr (safe_text e.id) (sha1 (pyOr link title))
  { id := entry_id, title := title, url := link, summary := summary,
    published := published, source := "RSS" }

def fetch_rss (entries : List RawEntry) (max_items : Nat) : List Item :=
  (entries.take max_items).map rssItem

/-! ## Classifier (`importance_level`)

The source evaluates an ordered rule chain over the lowercased
`f"{title} {summary}"` text, starting from the default level `"C"`.
Each rule is kept as its own function so the chain (and its monotonicity)
can be stated rule by rule. -/

def defaultComment : String := "チェック対象に変化あり。念のため確認推奨。"

def secCriticalKeywords : List String :=
  ["緊急", "critical", "rce", "remote code", "権限昇格", "ゼロデイ", "0day"]

def secVulnKeywords : List String :=
  ["脆弱性", "xss", "csrf", "sql", "認証", "漏えい", "パストラバーサル"]

/-- Rules 2–3: the `if`/`elif` security block (runs first, from the default). -/
def ruleSecurity (text : String) (lc : String × String) : String × String :=
  if secCriticalKeywords.any (fun k => strHasSub k text) then
    ("S", "危険度高めの匂い。社内IT/委託先に即共有が安全。")
  else if secVulnKeywords.any (fun k => strHasSub k text) then
    ("A", "セキュリティ系。影響範囲の棚卸し（該当製品/バージョン）を先にやると早い。")
  else lc

/-- Rule 4: law-update keyword boost (`level = "A" if level != "S" else level`). -/
def ruleLaw (target : Target) (text : String) (lc : String × String) : String × String :=
  if target.kind == "egov_law_updates"
      && target.important_keywords.any (fun k => strHasSub (pyLower k) text) then
    ((if lc.1 != "S" then "A" else lc.1),
     "法改正/更新の可能性。対象業務（契約書/規程/労務）に影響あるか確認。")
  else lc

def grantsRelevanceKeywords : List String := ["it", "dx", "設備", "省力化"]

def grantsAmountSentinels : List String := ["10000000", "5000000", "3000000"]

/-- Rule 5: the two grants checks (relevance keywords raise C to B; the crude
`上限:` big-amount substring check raises to A unless already S). -/
def ruleGrants (target : Target) (item : Item) (text : String)
    (lc : String × String) : String × String :=
  if target.kind == "jgrants" then
    let lc1 :=
      if grantsRelevanceKeywords.any (fun k => strHasSub k text) then
        ((if lc.1 == "C" then "B" else lc.1), lc.2)
      else lc
    if strHasSub "上限:" (safe_text item.summary)
        && grantsAmountSentinels.any (fun x => strHasSub x (safe_text item.summary)) then
      ((if lc1.1 != "S" then "A" else lc1.1),
       "補助金チャンス。締切と要件を先に確認→当てはまるなら最短で動ける。")
    else lc1
  else lc

/-- The marker glyph table `{"S": "🟥", "A": "🟧", "B": "🟨", "C": "🟦"}[level]`;
the source's dict lookup is only ever applied to the four keys (proved with
claim C3). -/
def emoji_of (level : String) : String :=
  if level == "S" then "🟥"
  else if level == "A" then "🟧"
  else if level == "B" then "🟨"
  else "🟦"

def classifierText (item : Item) : String :=
  pyLower (safe_text item.title) ++ " " ++ pyLower (safe_text item.summary)

def importance_level (item : Item) (target : Target) : String × String :=
  let text := classifierText item
  let lc := ruleGrants target item text
              (ruleLaw target text
                (ruleSecurity text ("C", defaultComment)))
  (lc.1, emoji_of lc.1 ++ " " ++ lc.2)

/-! ## Notifiers and the cycle runner (`run_once`)

Observable behaviour is recorded as an ordered `Event` trace:
`.call` marks one `notify_all(cfg, headline, body, url)` invocation (one
notification at the Dispatcher granularity), `.slack`/`.discord` mark the
individual webhook POST attempts made inside it, and `.save` marks
`save_state`.  The `World` record supplies everything external: fetch
results, wall-clock time, POST outcomes (a `.error` models
`requests.post(...).raise_for_status()` raising), and the iteration order
CPython's string-hash seed gives `list(seen)` for a `set` built from the
stored ids (`setOrder`). -/

inductive Event where
  | save (tid : String) (st : PyState)
  | call (headline body url : String)
  | slack (payload : String)
  | discord (title desc url : String)
deriving DecidableEq

def Event.isCall : Event → Bool
  | .call _ _ _ => true
  | _ => false

def Event.isSave : Event → Bool
  | .save _ _ => true
  | _ => false

def Event.isDiscord : Event → Bool
  | .discord _ _ _ => true
  | _ => false

structure Cfg where
  slack_enabled : Bool
  discord_enabled : Bool
  targets : List Target

structure Env where
  slack_url : String
  discord_url : String

structure World where
  fetch : Target → Except String (List Item)
  now : String
  slackPost : String → Except String Unit
  discordPost : String → String → String → Except String Unit
  setOrder : List String → List String

/-- `setOrder` really is some iteration order of `set(xs)`: a duplicate-free
list with exactly the elements of `xs`. -/
def SetOrderValid (w : World) : Prop :=
  ∀ xs : List String, (w.setOrder xs).Nodup ∧ ∀ x, x ∈ w.setOrder xs ↔ x ∈ xs

/-- All webhook POSTs succeed (the notification sink is healthy). -/
def PostsOk (w : World) : Prop :=
  (∀ p, w.slackPost p = .ok ()) ∧ (∀ t d u, w.discordPost t d u = .ok ())

def slackPayload (headline body url : String) : String :=
  headline ++ "\n" ++ body ++ "\n" ++ url

/-- The Slack branch of `notify_all` (`post_slack` raises on HTTP failure). -/
def trySlack (cfg : Cfg) (env : Env) (w : World) (headline body url : String) :
    List Event × Option String :=
  if cfg.slack_enabled && env.slack_url != "" then
    match w.slackPost (slackPayload headline body url) with
    | .ok _ => ([.slack (slackPayload headline body url)], none)
    | .error e => ([.slack (slackPayload headline body url)], some e)
  else ([], none)

/-- The Discord branch (`post_discord` truncates title to 256 and the
description to 4096 code points before posting). -/
def tryDiscord (cfg : Cfg) (env : Env) (w : World) (headline body url : String) :
    List Event × Option String :=
  if cfg.discord_enabled && env.discord_url != "" then
    let t := pyTakeStr 256 headline
    let d := pyTakeStr 4096 (body ++ "\n\n" ++ url)
    match w.discordPost t d url with
    | .ok _ => ([.discord t d url], none)
    | .error e => ([.discord t d url], some e)
  else ([], none)

/-- `notify_all`: Slack first, then Discord.  There is no try/except here, so
a raising Slack POST aborts the function before the Discord attempt; the
returned `Option String` is the propagating exception. -/
def notify_all (cfg : Cfg) (env : Env) (w : World) (headline body url : String) :
    List Event × Option String :=
  let s := trySlack cfg env w headline body url
  match s.2 with
  | some e => (Event.call headline body url :: s.1, some e)
  | none =>
    let d := tryDiscord cfg env w headline body url
    (Event.call headline body url :: (s.1 ++ d.1), d.2)

def pyTitle (target : Target) : String :=
  target.title?.getD target.id

def itemHeadline (target : Target) (level : String) : String :=
  "🚨 更新検知 [" ++ pyTitle target ++ "]（重要度:" ++ level ++ "）"

def itemBody (comment : String) (it : Item) : String :=
  comment ++ "\n・タイトル: " ++ safe_text it.title ++ "\n・概要: " ++ safe_text it.summary
    ++ "\n・日時: " ++ safe_text it.published ++ "\n・ソース: " ++ safe_text it.source

/-- One `.call` record as the per-item loop produces it. -/
def itemCallEv (target : Target) (it : Item) : Event :=
  .call (itemHeadline target (importance_level it target).1)
        (itemBody (importance_level it target).2 it)
        (safe_text it.url)

/-- The `for it in top:` loop; a raising `notify_all` aborts the loop. -/
def notifyLoop (cfg : Cfg) (env : Env) (w : World) (target : Target) :
    List Item → List Event × Option String
  | [] => ([], none)
  | it :: rest =>
    let lc := importance_level it target
    let r := notify_all cfg env w (itemHeadline target lc.1) (itemBody lc.2 it)
               (safe_text it.url)
    match r.2 with
    | some e => (r.1, some e)
    | none =>
      let r2 := notifyLoop cfg env w target rest
      (r.1 ++ r2.1, r2.2)

def overflowHeadline (target : Target) : String :=
  "📌 追加更新 [" ++ pyTitle target ++ "]"

def overflowBody (n : Nat) : String :=
  "他 " ++ toString (n - 3) ++ " 件の新規/更新がありました。必要なら max_items を上げて追跡できます。"

def overflowUrl : String := "（リンクは各通知参照）"

/-- Dispatch for the new items of one target: per-item notifications for the
first three, then the overflow summary when more than three are new. -/
def dispatchNew (cfg : Cfg) (env : Env) (w : World) (target : Target)
    (new_items : List Item) : List Event × Option String :=
  let r := notifyLoop cfg env w target (new_items.take 3)
  match r.2 with
  | some e => (r.1, some e)
  | none =>
    if new_items.length > 3 then
      let r2 := notify_all cfg env w (overflowHeadline target)
                  (overflowBody new_items.length) overflowUrl
      (r.1 ++ r2.1, r2.2)
    else (r.1, none)

def errHeadline (target : Target) : String :=
  "⚠️ 取得失敗 [" ++ pyTitle target ++ "]"

def errBody (now kind msg : String) : String :=
  "時刻: " ++ now ++ "\n種別: " ++ kind ++ "\nエラー: " ++ msg
    ++ "\n対処: URL/パラメータ/ネットワークを確認"

/-- The `except Exception` handler: one error notification.  Its own
`notify_all` may itself raise, in which case the exception escapes
`run_once` (second component). -/
def handleError (cfg : Cfg) (env : Env) (w : World) (target : Target) (e : String) :
    List Event × Option String :=
  notify_all cfg env w (errHeadline target) (errBody w.now target.kind (safe_text e))
    target.url

/-- The `for x in merged: if x not in dedup: dedup.append(x)` loop. -/
def dedupLoop (acc : List String) : List String → List String
  | [] => acc
  | x :: xs => if acc.contains x then dedupLoop acc xs else dedupLoop (acc ++ [x]) xs

def knownKind (k : String) : Bool :=
  k == "rss" || k == "egov_law_updates" || k == "jgrants"

/-- `new_items = [it for it in items if it["id"] not in seen]`; membership in
`seen = set(st["seen_ids"])` coincides with membership in the stored list. -/
def newItems (st : PyState) (items : List Item) : List Item :=
  items.filter (fun it => !(st.seen_ids.contains it.id))

/-- The record written by `save_state`:
`merged = [it["id"] for it in items] + list(seen)` (where `list(seen)` is the
set-iteration order `w.setOrder` of the stored ids), first-occurrence
deduplication, truncation to 300, and `last_run = now_jst_str()`. -/
def savedState (w : World) (st : PyState) (items : List Item) : PyState :=
  { seen_ids := (dedupLoop [] (items.map Item.id ++ w.setOrder st.seen_ids)).take 300,
    last_run := some w.now }

def updStore (store : String → StoredFile) (tid : String) (st' : PyState) :
    String → StoredFile :=
  fun t => if t == tid then StoredFile.valid st' else store t

structure StepResult where
  events : List Event
  store : String → StoredFile
  uncaught : Option String

/-- The body of `run_once`'s per-target loop (the `try`/`except` block).
An unknown kind is only logged (`continue`); fetch and `json.load` errors
reach the handler; otherwise: filter new items against the stored seen ids,
stop if none, else save the merged/deduplicated/truncated state and then
dispatch notifications, routing a raising `notify_all` to the handler. -/
def processTarget (cfg : Cfg) (env : Env) (w : World) (store : String → StoredFile)
    (target : Target) : StepResult :=
  let tid := target.id
  if knownKind target.kind then
    match w.fetch target with
    | .error e =>
      let r := handleError cfg env w target e
      { events := r.1, store := store, uncaught := r.2 }
    | .ok items =>
      match load_state (store tid) with
      | .error e =>
        let r := handleError cfg env w target e
        { events := r.1, store := store, uncaught := r.2 }
      | .ok st =>
        let new_items := newItems st items
        if new_items.isEmpty then { events := [], store := store, uncaught := none }
        else
          let st' := savedState w st items
          let store' := updStore store tid st'
          let r := dispatchNew cfg env w target new_items
          match r.2 with
          | none => { events := Event.save tid st' :: r.1, store := store', uncaught := none }
          | some e =>
            let r2 := handleError cfg env w target e
            { events := Event.save tid st' :: (r.1 ++ r2.1), store := store',
              uncaught := r2.2 }
  else { events := [], store := store, uncaught := none }

/-- The `for target in cfg.get("targets", [])` loop; an exception escaping a
target's `except` block aborts the whole cycle. -/
def runTargets (cfg : Cfg) (env : Env) (w : World) :
    List Target → (String → StoredFile) → StepResult
  | [], store => { events := [], store := store, uncaught := none }
  | t :: ts, store =>
    let r := processTarget cfg env w store t
    match r.uncaught with
    | some e => { events := r.events, store := r.store, uncaught := some e }
    | none =>
      let r2 := runTargets cfg env w ts r.store
      { events := r.events ++ r2.events, store := r2.store, uncaught := r2.uncaught }

def run_once (cfg : Cfg) (env : Env) (w : World) (store : String → StoredFile) :
    StepResult :=
  runTargets cfg env w cfg.targets store

/-! ## Concrete fixtures (used by witnesses and counterexamples) -/

def mkItem (s : String) : Item :=
  { id := s, title := "x", url := "", summary := "", published := "", source := "RSS" }

def demoTarget : Target :=
  { id := "t1", kind := "rss", title? := none, url := "u", max_items := 20,
    important_keywords := [] }

/-- Config with both notifiers disabled (notifications still produce their
`notify_all` invocation `.call` records). -/
def demoCfg : Cfg :=
  { slack_enabled := false, discord_enabled := false, targets := [demoTarget] }

def demoEnv : Env := { slack_url := "", discord_url := "" }

/-- Config/environment with both destinations enabled and configured. -/
def cfgOn : Cfg :=
  { slack_enabled := true, discord_enabled := true, targets := [demoTarget] }

def envOn : Env := { slack_url := "su", discord_url := "du" }

/-- Healthy world: a fixed fetch result, all POSTs succeed, and the set
iteration order given by first occurrence. -/
def okWorld (items : List Item) : World :=
  { fetch := fun _ => .ok items, now := "NOW",
    slackPost := fun _ => .ok (), discordPost := fun _ _ _ => .ok (),
    setOrder := fun xs => dedupLoop [] xs }

def itemI1 : Item := mkItem "i1"
def itemI2 : Item := mkItem "i2"

def emptyStore : String → StoredFile := fun _ => StoredFile.missing

/-- 301 pairwise distinct ids (distinguished by length). -/
def uId (i : Nat) : String := String.mk (List.replicate i 'a')

def bigItems : List Item := (List.range 301).map (fun i => mkItem (uId i))

def bigWorld : World := okWorld bigItems

/-- World whose `list(seen)` iteration order reverses first-occurrence order —
one of the orders CPython's seeded string hashing can produce. -/
def revWorld : World :=
  { okWorld [mkItem "c"] with setOrder := fun xs => (dedupLoop [] xs).reverse }

def abStore : String → StoredFile :=
  fun t => if t == "t1" then StoredFile.valid { seen_ids := ["a", "b"], last_run := none }
           else StoredFile.missing

/-- World where the Slack webhook rejects every per-item payload (those start
with the 🚨 glyph) but accepts everything else. -/
def slackFailWorld : World :=
  { okWorld [itemI1, itemI2] with
    slackPost := fun p => if pyTakeStr 1 p == "🚨" then .error "500 Server Error" else .ok () }

def corruptStore : String → StoredFile :=
  fun t => if t == "t1" then StoredFile.corrupt "Expecting value: line 1 column 1 (char 0)"
           else StoredFile.missing

def errWorld : World := { okWorld [] with fetch := fun _ => .error "boom" }

def Event.isItemCall : Event → Bool
  | .call h _ _ => pyTakeStr 1 h == "🚨"
  | _ => false

def Event.isItemDiscord : Event → Bool
  | .discord t _ _ => pyTakeStr 1 t == "🚨"
  | _ => false

/-- Severity order used by the spec: S > A > B > C. -/
def rank (level : String) : Nat :=
  if level == "S" then 3 else if level == "A" then 2 else if level == "B" then 1 else 0

def entryA : RawEntry :=
  { id := "", link := "http://x", title := "alpha", summary := "", published := "", updated := "" }

def entryB : RawEntry :=
  { id := "", link := "http://x", title := "beta", summary := "", published := "", updated := "" }

/-! ## Helper lemmas -/

theorem dedupLoop_append (l1 l2 acc : List String) :
    dedupLoop acc (l1 ++ l2) = dedupLoop (dedupLoop acc l1) l2 := by
  induction l1 generalizing acc with
  | nil => simp [dedupLoop]
  | cons x xs ih =>
    simp only [List.cons_append, dedupLoop]
    split <;> exact ih _

theorem dedupLoop_cons (acc : List String) (x : String) (xs : List String) :
    dedupLoop acc (x :: xs)
      = if acc.contains x = true then dedupLoop acc xs else dedupLoop (acc ++ [x]) xs := rfl

theorem dedupLoop_extends (l acc : List String) :
    ∃ t, dedupLoop acc l = acc ++ t := by
  induction l generalizing acc with
  | nil => exact ⟨[], by simp [dedupLoop]⟩
  | cons x xs ih =>
    by_cases h : acc.contains x = true
    · obtain ⟨t, ht⟩ := ih acc
      exact ⟨t, by rw [dedupLoop_cons, if_pos h, ht]⟩
    · obtain ⟨t, ht⟩ := ih (acc ++ [x])
      exact ⟨x :: t, by rw [dedupLoop_cons, if_neg h, ht]; simp⟩

theorem mem_dedupLoop_of_mem {x : String} {l : List String} (acc : List String)
    (hx : x ∈ l) : x ∈ dedupLoop acc l := by
  induction l generalizing acc with
  | nil => cases hx
  | cons a xs ih =>
    by_cases h : acc.contains a = true
    · rw [dedupLoop_cons, if_pos h]
      rcases List.mem_cons.mp hx with rfl | hx'
      · obtain ⟨t, ht⟩ := dedupLoop_extends xs acc
        rw [ht]
        exact List.mem_append_left _ (by simpa using h)
      · exact ih acc hx'
    · rw [dedupLoop_cons, if_neg h]
      rcases List.mem_cons.mp hx with rfl | hx'
      · obtain ⟨t, ht⟩ := dedupLoop_extends xs (acc ++ [x])
        rw [ht]
        exact List.mem_append_left _ (by simp)
      · exact ih (acc ++ [a]) hx'

theorem mem_of_mem_dedupLoop {x : String} {l acc : List String}
    (hx : x ∈ dedupLoop acc l) : x ∈ acc ∨ x ∈ l := by
  induction l generalizing acc with
  | nil => exact Or.inl (by simpa [dedupLoop] using hx)
  | cons a xs ih =>
    by_cases h : acc.contains a = true
    · rw [dedupLoop_cons, if_pos h] at hx
      rcases ih hx with h' | h'
      · exact Or.inl h'
      · exact Or.inr (List.mem_cons_of_mem _ h')
    · rw [dedupLoop_cons, if_neg h] at hx
      rcases ih hx with h' | h'
      · rcases List.mem_append.mp h' with h'' | h''
        · exact Or.inl h''
        · exact Or.inr (List.mem_cons.mpr (Or.inl (by simpa using h'')))
      · exact Or.inr (List.mem_cons_of_mem _ h')

theorem length_dedupLoop_le (l acc : List String) :
    (dedupLoop acc l).length ≤ acc.length + l.length := by
  induction l generalizing acc with
  | nil => simp [dedupLoop]
  | cons a xs ih =>
    by_cases h : acc.contains a = true
    · rw [dedupLoop_cons, if_pos h]
      exact (ih acc).trans (by simp)
    · rw [dedupLoop_cons, if_neg h]
      have := ih (acc ++ [a])
      simp only [List.length_append, List.length_singleton] at this
      simp only [List.length_cons]
      omega

theorem nodup_dedupLoop (l acc : List String) (hacc : acc.Nodup) :
    (dedupLoop acc l).Nodup := by
  induction l generalizing acc with
  | nil => simpa [dedupLoop]
  | cons a xs ih =>
    by_cases h : acc.contains a = true
    · rw [dedupLoop_cons, if_pos h]
      exact ih acc hacc
    · rw [dedupLoop_cons, if_neg h]
      refine ih (acc ++ [a]) ?_
      have ha : a ∉ acc := by simpa using h
      simp [List.nodup_append, hacc, ha]

theorem dedupLoop_eq_append (l : List String) : ∀ acc, l.Nodup →
    (∀ x ∈ l, x ∉ acc) → dedupLoop acc l = acc ++ l := by
  induction l with
  | nil => intro acc _ _; simp [dedupLoop]
  | cons a xs ih =>
    intro acc hl hd
    have ha : ¬ acc.contains a = true := by simpa using hd a (List.mem_cons_self a xs)
    rw [dedupLoop_cons, if_neg ha]
    rw [ih (acc ++ [a]) (List.nodup_cons.mp hl).2 ?_]
    · simp
    · intro x hx
      simp only [List.mem_append, List.mem_singleton, not_or]
      exact ⟨hd x (List.mem_cons_of_mem _ hx), fun hxa => (List.nodup_cons.mp hl).1 (hxa ▸ hx)⟩


theorem trySlack_snd {w : World} (hp : PostsOk w) (cfg : Cfg) (env : Env)
    (h b u : String) : (trySlack cfg env w h b u).2 = none := by
  simp only [trySlack, hp.1]
  split <;> rfl

theorem tryDiscord_snd {w : World} (hp : PostsOk w) (cfg : Cfg) (env : Env)
    (h b u : String) : (tryDiscord cfg env w h b u).2 = none := by
  simp only [tryDiscord, hp.2]
  split <;> rfl

theorem trySlack_calls (cfg : Cfg) (env : Env) (w : World) (h b u : String) :
    (trySlack cfg env w h b u).1.filter Event.isCall = [] := by
  simp only [trySlack]
  split
  · cases hs : w.slackPost (slackPayload h b u) <;> simp [Event.isCall]
  · rfl

theorem tryDiscord_calls (cfg : Cfg) (env : Env) (w : World) (h b u : String) :
    (tryDiscord cfg env w h b u).1.filter Event.isCall = [] := by
  simp only [tryDiscord]
  split
  · cases hd : w.discordPost (pyTakeStr 256 h) (pyTakeStr 4096 (b ++ "\n\n" ++ u)) u <;>
      simp [Event.isCall]
  · rfl

theorem notify_all_snd {w : World} (hp : PostsOk w) (cfg : Cfg) (env : Env)
    (h b u : String) : (notify_all cfg env w h b u).2 = none := by
  simp only [notify_all, trySlack_snd hp, tryDiscord_snd hp]

theorem notify_all_calls (cfg : Cfg) (env : Env) (w : World) (h b u : String) :
    (notify_all cfg env w h b u).1.filter Event.isCall = [Event.call h b u] := by
  simp only [notify_all]
  cases hs : (trySlack cfg env w h b u).2 <;>
    simp [hs, Event.isCall, List.filter_append, trySlack_calls, tryDiscord_calls]

theorem notifyLoop_ok {w : World} (hp : PostsOk w) (cfg : Cfg) (env : Env)
    (target : Target) (l : List Item) :
    (notifyLoop cfg env w target l).2 = none
    ∧ (notifyLoop cfg env w target l).1.filter Event.isCall
        = l.map (itemCallEv target) := by
  induction l with
  | nil => exact ⟨rfl, rfl⟩
  | cons it rest ih =>
    simp only [notifyLoop, notify_all_snd hp]
    refine ⟨ih.1, ?_⟩
    simp only [List.filter_append, List.map_cons, notify_all_calls, ih.2, itemCallEv]
    rfl

theorem dispatchNew_ok {w : World} (hp : PostsOk w) (cfg : Cfg) (env : Env)
    (target : Target) (l : List Item) :
    (dispatchNew cfg env w target l).2 = none
    ∧ (dispatchNew cfg env w target l).1.filter Event.isCall
        = (l.take 3).map (itemCallEv target)
          ++ (if l.length > 3 then
                [Event.call (overflowHeadline target) (overflowBody l.length) overflowUrl]
              else []) := by
  simp only [dispatchNew, (notifyLoop_ok hp cfg env target (l.take 3)).1]
  by_cases hlen : l.length > 3
  · simp only [hlen, if_true, notify_all_snd hp]
    refine ⟨trivial, ?_⟩
    simp [List.filter_append, (notifyLoop_ok hp cfg env target (l.take 3)).2,
      notify_all_calls, hlen]
  · simp only [hlen, if_false]
    exact ⟨trivial, by simp [(notifyLoop_ok hp cfg env target (l.take 3)).2, hlen]⟩

theorem handleError_calls (cfg : Cfg) (env : Env) (w : World) (target : Target)
    (e : String) :
    (handleError cfg env w target e).1.filter Event.isCall
      = [Event.call (errHeadline target) (errBody w.now target.kind (safe_text e))
          target.url] := by
  simp only [handleError]
  exact notify_all_calls ..

theorem handleError_snd {w : World} (hp : PostsOk w) (cfg : Cfg) (env : Env)
    (target : Target) (e : String) : (handleError cfg env w target e).2 = none := by
  simp only [handleError]
  exact notify_all_snd hp ..

theorem load_state_ok_of_not_corrupt (f : StoredFile) (h : f.isCorrupt = false) :
    ∃ st, load_state f = .ok st := by
  cases f with
  | missing => exact ⟨_, rfl⟩
  | corrupt msg => simp [StoredFile.isCorrupt] at h
  | valid st => exact ⟨st, rfl⟩

theorem processTarget_unknown {target : Target} (cfg : Cfg) (env : Env) (w : World)
    (store : String → StoredFile) (hk : knownKind target.kind = false) :
    processTarget cfg env w store target = ⟨[], store, none⟩ := by
  simp [processTarget, hk]

theorem processTarget_fetch_err {w : World} {target : Target} {e : String}
    (cfg : Cfg) (env : Env) (store : String → StoredFile)
    (hk : knownKind target.kind = true) (hf : w.fetch target = .error e) :
    processTarget cfg env w store target
      = ⟨(handleError cfg env w target e).1, store,
         (handleError cfg env w target e).2⟩ := by
  simp only [processTarget, hk, hf, if_true]

theorem processTarget_load_err {w : World} {target : Target} {e : String}
    {items : List Item} (cfg : Cfg) (env : Env) (store : String → StoredFile)
    (hk : knownKind target.kind = true) (hf : w.fetch target = .ok items)
    (hl : load_state (store target.id) = .error e) :
    processTarget cfg env w store target
      = ⟨(handleError cfg env w target e).1, store,
         (handleError cfg env w target e).2⟩ := by
  simp only [processTarget, hk, hf, hl, if_true]

theorem processTarget_no_new {w : World} {target : Target} {items : List Item}
    {st : PyState} (cfg : Cfg) (env : Env) (store : String → StoredFile)
    (hk : knownKind target.kind = true) (hf : w.fetch target = .ok items)
    (hl : load_state (store target.id) = .ok st)
    (hne : (newItems st items).isEmpty = true) :
    processTarget cfg env w store target = ⟨[], store, none⟩ := by
  simp only [processTarget, hk, hf, hl, hne, if_true]

theorem processTarget_new_ok {w : World} {target : Target} {items : List Item}
    {st : PyState} (cfg : Cfg) (env : Env) (store : String → StoredFile)
    (hk : knownKind target.kind = true) (hf : w.fetch target = .ok items)
    (hl : load_state (store target.id) = .ok st)
    (hne : (newItems st items).isEmpty = false)
    (hd : (dispatchNew cfg env w target (newItems st items)).2 = none) :
    processTarget cfg env w store target
      = ⟨Event.save target.id (savedState w st items)
           :: (dispatchNew cfg env w target (newItems st items)).1,
         updStore store target.id (savedState w st items), none⟩ := by
  simp only [processTarget, hk, hf, hl, hne, hd, if_true, Bool.false_eq_true, if_false]

theorem processTarget_new_err {w : World} {target : Target} {items : List Item}
    {st : PyState} {e : String} (cfg : Cfg) (env : Env) (store : String → StoredFile)
    (hk : knownKind target.kind = true) (hf : w.fetch target = .ok items)
    (hl : load_state (store target.id) = .ok st)
    (hne : (newItems st items).isEmpty = false)
    (hd : (dispatchNew cfg env w target (newItems st items)).2 = some e) :
    processTarget cfg env w store target
      = ⟨Event.save target.id (savedState w st items)
           :: ((dispatchNew cfg env w target (newItems st items)).1
               ++ (handleError cfg env w target e).1),
         updStore store target.id (savedState w st items),
         (handleError cfg env w target e).2⟩ := by
  simp only [processTarget, hk, hf, hl, hne, hd, if_true, Bool.false_eq_true, if_false]

theorem runTargets_cons_ok {cfg : Cfg} {env : Env} {w : World} {t : Target}
    (ts : List Target) (store : String → StoredFile)
    (h : (processTarget cfg env w store t).uncaught = none) :
    runTargets cfg env w (t :: ts) store
      = ⟨(processTarget cfg env w store t).events
           ++ (runTargets cfg env w ts (processTarget cfg env w store t).store).events,
         (runTargets cfg env w ts (processTarget cfg env w store t).store).store,
         (runTargets cfg env w ts (processTarget cfg env w store t).store).uncaught⟩ := by
  simp only [runTargets, h]

theorem setOrderValid_canonical (w : World)
    (h : w.setOrder = fun xs => dedupLoop [] xs) : SetOrderValid w := by
  intro xs
  rw [h]
  refine ⟨nodup_dedupLoop xs [] List.nodup_nil, fun x => ⟨fun hx => ?_, fun hx => ?_⟩⟩
  · rcases mem_of_mem_dedupLoop hx with h' | h'
    · cases h'
    · exact h'
  · exact mem_dedupLoop_of_mem [] hx

theorem setOrder_singleton {w : World} (hv : SetOrderValid w) (X : String) :
    w.setOrder [X] = [X] := by
  have hX : X ∈ w.setOrder [X] := ((hv [X]).2 X).mpr (by simp)
  have hall : ∀ y ∈ w.setOrder [X], y = X := fun y hy => by
    simpa using ((hv [X]).2 y).mp hy
  have hnd := (hv [X]).1
  cases h1 : w.setOrder [X] with
  | nil => rw [h1] at hX; cases hX
  | cons a t =>
    rw [h1] at hall hnd
    have ha : a = X := hall a (by simp)
    cases t with
    | nil => rw [ha]
    | cons b t2 =>
      have hb : b = X := hall b (by simp)
      rw [List.nodup_cons] at hnd
      exact absurd (by simp [ha, hb]) hnd.1

theorem mem_take_dedup {x : String} {ids : List String} (σ : List String)
    (hx : x ∈ ids) (hlen : (dedupLoop [] ids).length ≤ 300) :
    x ∈ (dedupLoop [] (ids ++ σ)).take 300 := by
  rw [dedupLoop_append]
  obtain ⟨t, ht⟩ := dedupLoop_extends σ (dedupLoop [] ids)
  rw [ht, List.take_append_eq_append_take, List.take_of_length_le hlen]
  exact List.mem_append_left _ (mem_dedupLoop_of_mem [] hx)

theorem postsOk_okWorld (items : List Item) : PostsOk (okWorld items) :=
  ⟨fun _ => rfl, fun _ _ _ => rfl⟩

theorem rank_raiseA (s : String) : rank s ≤ rank (if s != "S" then "A" else s) := by
  by_cases h : s = "S"
  · simp [h]
  · have hb : (s != "S") = true := by simp [h]
    rw [if_pos hb]
    unfold rank
    simp only [h, beq_iff_eq, if_false]
    split_ifs <;> omega

theorem mem_raiseA (s : String) (h : s ∈ (["S", "A", "B", "C"] : List String)) :
    (if s != "S" then "A" else s) ∈ (["S", "A", "B", "C"] : List String) := by
  split
  · simp
  · exact h

theorem mem_raiseB (s : String) (h : s ∈ (["S", "A", "B", "C"] : List String)) :
    (if s == "C" then "B" else s) ∈ (["S", "A", "B", "C"] : List String) := by
  split
  · simp
  · exact h

theorem rank_raiseB (s : String) : rank s ≤ rank (if s == "C" then "B" else s) := by
  by_cases h : s = "C"
  · simp [h, rank]
  · simp [h]

theorem rank_ruleLaw_ge (target : Target) (text : String) (lc : String × String) :
    rank lc.1 ≤ rank (ruleLaw target text lc).1 := by
  unfold ruleLaw
  split
  · exact rank_raiseA lc.1
  · exact Nat.le_refl _

theorem rank_ruleGrants_ge (target : Target) (item : Item) (text : String)
    (lc : String × String) :
    rank lc.1 ≤ rank (ruleGrants target item text lc).1 := by
  unfold ruleGrants
  by_cases hk : (target.kind == "jgrants") = true
  · rw [if_pos hk]
    dsimp only
    by_cases hrel : (grantsRelevanceKeywords.any fun k => strHasSub k text) = true
    · rw [if_pos hrel]
      by_cases hamt : (strHasSub "上限:" (safe_text item.summary)
          && grantsAmountSentinels.any fun x => strHasSub x (safe_text item.summary)) = true
      · rw [if_pos hamt]
        exact le_trans (rank_raiseB lc.1) (rank_raiseA _)
      · rw [if_neg hamt]
        exact rank_raiseB lc.1
    · rw [if_neg hrel]
      by_cases hamt : (strHasSub "上限:" (safe_text item.summary)
          && grantsAmountSentinels.any fun x => strHasSub x (safe_text item.summary)) = true
      · rw [if_pos hamt]
        exact rank_raiseA lc.1
      · rw [if_neg hamt]
  · rw [if_neg hk]

theorem ruleSecurity_mem (text : String) (lc : String × String)
    (h : lc.1 ∈ (["S", "A", "B", "C"] : List String)) :
    (ruleSecurity text lc).1 ∈ (["S", "A", "B", "C"] : List String) := by
  unfold ruleSecurity
  split
  · simp
  · split
    · simp
    · exact h

theorem ruleLaw_mem (target : Target) (text : String) (lc : String × String)
    (h : lc.1 ∈ (["S", "A", "B", "C"] : List String)) :
    (ruleLaw target text lc).1 ∈ (["S", "A", "B", "C"] : List String) := by
  unfold ruleLaw
  split
  · split
    · simp
    · exact h
  · exact h

theorem ruleGrants_mem (target : Target) (item : Item) (text : String)
    (lc : String × String) (h : lc.1 ∈ (["S", "A", "B", "C"] : List String)) :
    (ruleGrants target item text lc).1 ∈ (["S", "A", "B", "C"] : List String) := by
  unfold ruleGrants
  by_cases hk : (target.kind == "jgrants") = true
  · rw [if_pos hk]
    dsimp only
    by_cases hrel : (grantsRelevanceKeywords.any fun k => strHasSub k text) = true
    · rw [if_pos hrel]
      by_cases hamt : (strHasSub "上限:" (safe_text item.summary)
          && grantsAmountSentinels.any fun x => strHasSub x (safe_text item.summary)) = true
      · rw [if_pos hamt]
        exact mem_raiseA _ (mem_raiseB _ h)
      · rw [if_neg hamt]
        exact mem_raiseB _ h
    · rw [if_neg hrel]
      by_cases hamt : (strHasSub "上限:" (safe_text item.summary)
          && grantsAmountSentinels.any fun x => strHasSub x (safe_text item.summary)) = true
      · rw [if_pos hamt]
        exact mem_raiseA _ h
      · rw [if_neg hamt]
        exact h
  · rw [if_neg hk]
    exact h

/-- C3: for every item and target, evaluating the classifier's rules 2–5 in
sequence never decreases the running severity level under the total order
S > A > B > C (each later rule leaves the level unchanged or raises it), and
`importance_level` always returns one of S/A/B/C. -/
theorem c3_severity_monotone (item : Item) (target : Target) :
    rank ("C", defaultComment).1
        ≤ rank (ruleSecurity (classifierText item) ("C", defaultComment)).1
    ∧ rank (ruleSecurity (classifierText item) ("C", defaultComment)).1
        ≤ rank (ruleLaw target (classifierText item)
            (ruleSecurity (classifierText item) ("C", defaultComment))).1
    ∧ rank (ruleLaw target (classifierText item)
            (ruleSecurity (classifierText item) ("C", defaultComment))).1
        ≤ rank (ruleGrants target item (classifierText item)
            (ruleLaw target (classifierText item)
              (ruleSecurity (classifierText item) ("C", defaultComment)))).1
    ∧ (importance_level item target).1
        = (ruleGrants target item (classifierText item)
            (ruleLaw target (classifierText item)
              (ruleSecurity (classifierText item) ("C", defaultComment)))).1
    ∧ (importance_level item target).1 ∈ (["S", "A", "B", "C"] : List String) := by
  refine ⟨?_, rank_ruleLaw_ge _ _ _, rank_ruleGrants_ge _ _ _ _, rfl, ?_⟩
  · have h0 : rank ("C", defaultComment).1 = 0 := by simp [rank]
    rw [h0]
    exact Nat.zero_le _
  · exact ruleGrants_mem _ _ _ _ (ruleLaw_mem _ _ _ (ruleSecurity_mem _ _ (by simp)))

/-- C10: a target whose kind is none of `rss`, `egov_law_updates`, `jgrants`
is silently skipped: no notifications (not even an error one), its persisted
state is untouched, and the cycle continues with the remaining targets. -/
theorem c10_unknown_kind_skipped (cfg : Cfg) (env : Env) (w : World)
    (store : String → StoredFile) (target : Target) (rest : List Target)
    (h1 : target.kind ≠ "rss") (h2 : target.kind ≠ "egov_law_updates")
    (h3 : target.kind ≠ "jgrants") (hcfg : cfg.targets = target :: rest) :
    processTarget cfg env w store target = ⟨[], store, none⟩
    ∧ run_once cfg env w store = runTargets cfg env w rest store := by
  have hk : knownKind target.kind = false := by
    simp [knownKind, h1, h2, h3]
  have h := processTarget_unknown cfg env w store hk
  refine ⟨h, ?_⟩
  rw [run_once, hcfg, runTargets_cons_ok rest store (by rw [h])]
  rw [h]
  simp

/-- C10 witness: a concrete target of kind `"unknown"` is skipped and the
cycle degenerates to the remaining (empty) target list. -/
theorem c10_witness :
    processTarget { demoCfg with targets := [{ demoTarget with kind := "unknown" }] }
        demoEnv (okWorld [itemI1]) emptyStore { demoTarget with kind := "unknown" }
      = ⟨[], emptyStore, none⟩
    ∧ run_once { demoCfg with targets := [{ demoTarget with kind := "unknown" }] }
        demoEnv (okWorld [itemI1]) emptyStore
      = runTargets { demoCfg with targets := [{ demoTarget with kind := "unknown" }] }
          demoEnv (okWorld [itemI1]) [] emptyStore :=
  c10_unknown_kind_skipped _ _ _ _ _ _ (by decide) (by decide) (by decide) rfl

/-- C5: a target whose fetch raises produces exactly one error notification
(whose body is the timestamp/kind/error template), leaves that target's
persisted state unchanged, and the remaining targets of the cycle are still
processed from the same store. -/
theorem c5_fetch_error_isolated (cfg : Cfg) (env : Env) (w : World)
    (store : String → StoredFile) (target : Target) (rest : List Target) (e : String)
    (hk : knownKind target.kind = true) (hf : w.fetch target = .error e)
    (hp : PostsOk w) (hcfg : cfg.targets = target :: rest) :
    (processTarget cfg env w store target).events.filter Event.isCall
        = [Event.call (errHeadline target) (errBody w.now target.kind (safe_text e))
            target.url]
    ∧ (processTarget cfg env w store target).store = store
    ∧ (run_once cfg env w store).events
        = (processTarget cfg env w store target).events
          ++ (runTargets cfg env w rest store).events
    ∧ (run_once cfg env w store).store = (runTargets cfg env w rest store).store := by
  have hpt := processTarget_fetch_err cfg env store hk hf
  have hun : (processTarget cfg env w store target).uncaught = none := by
    rw [hpt]
    exact handleError_snd hp cfg env target e
  refine ⟨?_, ?_, ?_, ?_⟩
  · rw [hpt]
    exact handleError_calls cfg env w target e
  · rw [hpt]
  · rw [run_once, hcfg, runTargets_cons_ok rest store hun, hpt]
  · rw [run_once, hcfg, runTargets_cons_ok rest store hun, hpt]

/-- C5 witness: with a concrete failing fetch (`"boom"`), a healthy sink, and
a second target in the cycle, the error-notification/state/continuation
conclusions hold. -/
theorem c5_witness :
    (processTarget { demoCfg with targets := [demoTarget, { demoTarget with id := "t2" }] }
        demoEnv errWorld emptyStore demoTarget).events.filter Event.isCall
        = [Event.call (errHeadline demoTarget)
            (errBody errWorld.now demoTarget.kind (safe_text "boom")) demoTarget.url]
    ∧ (processTarget { demoCfg with targets := [demoTarget, { demoTarget with id := "t2" }] }
        demoEnv errWorld emptyStore demoTarget).store = emptyStore
    ∧ (run_once { demoCfg with targets := [demoTarget, { demoTarget with id := "t2" }] }
        demoEnv errWorld emptyStore).events
        = (processTarget { demoCfg with targets := [demoTarget, { demoTarget with id := "t2" }] }
            demoEnv errWorld emptyStore demoTarget).events
          ++ (runTargets { demoCfg with targets := [demoTarget, { demoTarget with id := "t2" }] }
              demoEnv errWorld [{ demoTarget with id := "t2" }] emptyStore).events
    ∧ (run_once { demoCfg with targets := [demoTarget, { demoTarget with id := "t2" }] }
        demoEnv errWorld emptyStore).store
        = (runTargets { demoCfg with targets := [demoTarget, { demoTarget with id := "t2" }] }
            demoEnv errWorld [{ demoTarget with id := "t2" }] emptyStore).store :=
  c5_fetch_error_isolated _ _ _ _ _ _ _ (by decide) rfl
    ⟨fun _ => rfl, fun _ _ _ => rfl⟩ rfl

/-- C4: with exactly 5 new items a target emits exactly 3 per-item
notifications (for the first 3 new items, in fetch order) plus exactly one
overflow summary stating the remaining count (2); with exactly 3 new items it
emits 3 per-item notifications and no overflow. -/
theorem c4_batching (cfg : Cfg) (env : Env) (w : World)
    (store : String → StoredFile) (target : Target) (items : List Item) (st : PyState)
    (hk : knownKind target.kind = true) (hf : w.fetch target = .ok items)
    (hl : load_state (store target.id) = .ok st) (hp : PostsOk w) :
    ((newItems st items).length = 5 →
        (processTarget cfg env w store target).events.filter Event.isCall
          = ((newItems st items).take 3).map (itemCallEv target)
            ++ [Event.call (overflowHeadline target) (overflowBody 5) overflowUrl]
        ∧ ((processTarget cfg env w store target).events.filter Event.isCall).length = 4
        ∧ overflowBody 5
            = "他 2 件の新規/更新がありました。必要なら max_items を上げて追跡できます。")
    ∧ ((newItems st items).length = 3 →
        (processTarget cfg env w store target).events.filter Event.isCall
          = (newItems st items).map (itemCallEv target)
        ∧ ((processTarget cfg env w store target).events.filter Event.isCall).length = 3) := by
  constructor
  · intro h5
    have hnil : newItems st items ≠ [] := by
      intro hnil
      rw [hnil] at h5
      simp at h5
    have hne : (newItems st items).isEmpty = false :=
      Bool.eq_false_iff.mpr (fun h => hnil (List.isEmpty_iff.mp h))
    have hpt := processTarget_new_ok cfg env store hk hf hl hne
      (dispatchNew_ok hp cfg env target (newItems st items)).1
    rw [hpt]
    have hcalls : (Event.save target.id (savedState w st items)
        :: (dispatchNew cfg env w target (newItems st items)).1).filter Event.isCall
        = (dispatchNew cfg env w target (newItems st items)).1.filter Event.isCall := by
      simp [Event.isCall]
    rw [hcalls, (dispatchNew_ok hp cfg env target (newItems st items)).2, h5]
    refine ⟨by simp, ?_, rfl⟩
    simp [List.length_take, h5]
  · intro h3
    have hnil : newItems st items ≠ [] := by
      intro hnil
      rw [hnil] at h3
      simp at h3
    have hne : (newItems st items).isEmpty = false :=
      Bool.eq_false_iff.mpr (fun h => hnil (List.isEmpty_iff.mp h))
    have hpt := processTarget_new_ok cfg env store hk hf hl hne
      (dispatchNew_ok hp cfg env target (newItems st items)).1
    rw [hpt]
    have hcalls : (Event.save target.id (savedState w st items)
        :: (dispatchNew cfg env w target (newItems st items)).1).filter Event.isCall
        = (dispatchNew cfg env w target (newItems st items)).1.filter Event.isCall := by
      simp [Event.isCall]
    rw [hcalls, (dispatchNew_ok hp cfg env target (newItems st items)).2, h3,
      List.take_of_length_le (by rw [h3])]
    refine ⟨by simp, ?_⟩
    simp [h3]

/-- C4 witness: concrete 5-item and 3-item fetches against an empty store
produce the 3+1 and 3+0 notification patterns from the theorem. -/
theorem c4_witness :
    ((processTarget demoCfg demoEnv
        (okWorld [mkItem "a", mkItem "b", mkItem "c", mkItem "d", mkItem "e"])
        emptyStore demoTarget).events.filter Event.isCall
      = ((newItems { seen_ids := [], last_run := none }
            [mkItem "a", mkItem "b", mkItem "c", mkItem "d", mkItem "e"]).take 3).map
              (itemCallEv demoTarget)
        ++ [Event.call (overflowHeadline demoTarget) (overflowBody 5) overflowUrl])
    ∧ ((processTarget demoCfg demoEnv
        (okWorld [mkItem "x1", mkItem "x2", mkItem "x3"])
        emptyStore demoTarget).events.filter Event.isCall
      = (newItems { seen_ids := [], last_run := none }
          [mkItem "x1", mkItem "x2", mkItem "x3"]).map (itemCallEv demoTarget)) := by
  constructor
  · exact ((c4_batching demoCfg demoEnv
      (okWorld [mkItem "a", mkItem "b", mkItem "c", mkItem "d", mkItem "e"])
      emptyStore demoTarget [mkItem "a", mkItem "b", mkItem "c", mkItem "d", mkItem "e"]
      { seen_ids := [], last_run := none } (by decide) rfl rfl
      (postsOk_okWorld _)).1 (by decide)).1
  · exact ((c4_batching demoCfg demoEnv
      (okWorld [mkItem "x1", mkItem "x2", mkItem "x3"])
      emptyStore demoTarget [mkItem "x1", mkItem "x2", mkItem "x3"]
      { seen_ids := [], last_run := none } (by decide) rfl rfl
      (postsOk_okWorld _)).2 (by decide)).1

/-- C9 counterexample: at a concrete target with one new item the per-target
trace is `[save, notify_all-call]` — the state save strictly precedes the
notification, so the claim "the Dispatcher emits the notifications before the
state is updated and persisted" is false on this input. -/
theorem c9_counterexample :
    (processTarget demoCfg demoEnv (okWorld [itemI1]) emptyStore demoTarget).events.map
        Event.isSave = [true, false]
    ∧ (processTarget demoCfg demoEnv (okWorld [itemI1]) emptyStore demoTarget).events.map
        Event.isCall = [false, true] := by decide

/-- C9 (amended): within one target's cycle with new items, the state is
updated and persisted first, and the dispatcher's notifications follow: the
trace starts with the `save` event and the store is already rewritten. -/
theorem c9_amended_save_before_notify (cfg : Cfg) (env : Env) (w : World)
    (store : String → StoredFile) (target : Target) (items : List Item) (st : PyState)
    (hk : knownKind target.kind = true) (hf : w.fetch target = .ok items)
    (hl : load_state (store target.id) = .ok st)
    (hne : (newItems st items).isEmpty = false) :
    ∃ evs, (processTarget cfg env w store target).events
        = Event.save target.id (savedState w st items) :: evs
      ∧ (processTarget cfg env w store target).store
        = updStore store target.id (savedState w st items) := by
  cases hd : (dispatchNew cfg env w target (newItems st items)).2 with
  | none =>
    refine ⟨(dispatchNew cfg env w target (newItems st items)).1, ?_, ?_⟩ <;>
      rw [processTarget_new_ok cfg env store hk hf hl hne hd]
  | some e =>
    refine ⟨(dispatchNew cfg env w target (newItems st items)).1
      ++ (handleError cfg env w target e).1, ?_, ?_⟩ <;>
      rw [processTarget_new_err cfg env store hk hf hl hne hd]

/-- C9 witness: the amended save-before-notify fact at the concrete one-item
input of the counterexample. -/
theorem c9_witness :
    ∃ evs, (processTarget demoCfg demoEnv (okWorld [itemI1]) emptyStore demoTarget).events
        = Event.save demoTarget.id
            (savedState (okWorld [itemI1]) { seen_ids := [], last_run := none } [itemI1])
          :: evs
      ∧ (processTarget demoCfg demoEnv (okWorld [itemI1]) emptyStore demoTarget).store
        = updStore emptyStore demoTarget.id
            (savedState (okWorld [itemI1]) { seen_ids := [], last_run := none } [itemI1]) :=
  c9_amended_save_before_notify demoCfg demoEnv (okWorld [itemI1]) emptyStore demoTarget
    [itemI1] { seen_ids := [], last_run := none } (by decide) rfl rfl (by decide)

/-- C7 counterexample: a present-but-corrupt state file is not degraded to an
empty seen set; `json.load` raises, the per-target handler emits an error
notification, and the target is not processed (its store entry stays
corrupt). -/
theorem c7_counterexample :
    corruptStore demoTarget.id
        = StoredFile.corrupt "Expecting value: line 1 column 1 (char 0)"
    ∧ (processTarget demoCfg demoEnv (okWorld [itemI1]) corruptStore demoTarget).events.filter
        Event.isCall
      = [Event.call (errHeadline demoTarget)
          (errBody "NOW" "rss" "Expecting value: line 1 column 1 (char 0)") "u"]
    ∧ (processTarget demoCfg demoEnv (okWorld [itemI1]) corruptStore demoTarget).store
        demoTarget.id = corruptStore demoTarget.id := by decide

/-- C7 (amended): an absent state file loads as the empty-seen-set record and
the target is then processed normally with every fetched item new; but a
present unreadable/corrupt file makes `load_state` raise, which the
per-target handler turns into an error notification (see the
counterexample). -/
theorem c7_missing_state_degrades :
    load_state StoredFile.missing = .ok { seen_ids := [], last_run := none }
    ∧ (∀ msg, load_state (StoredFile.corrupt msg) = .error msg)
    ∧ (∀ (cfg : Cfg) (env : Env) (w : World) (store : String → StoredFile)
        (target : Target) (items : List Item),
        knownKind target.kind = true → w.fetch target = .ok items →
        store target.id = StoredFile.missing → PostsOk w → items ≠ [] →
        newItems { seen_ids := [], last_run := none } items = items
        ∧ (processTarget cfg env w store target).events.filter Event.isCall
            = (items.take 3).map (itemCallEv target)
              ++ (if items.length > 3 then
                    [Event.call (overflowHeadline target) (overflowBody items.length)
                      overflowUrl]
                  else [])) := by
  refine ⟨rfl, fun msg => rfl, ?_⟩
  intro cfg env w store target items hk hf hstore hp hnil
  have hall : newItems { seen_ids := [], last_run := none } items = items := by
    simp [newItems]
  have hl : load_state (store target.id) = .ok { seen_ids := [], last_run := none } := by
    rw [hstore]
    rfl
  have hne : (newItems { seen_ids := [], last_run := none } items).isEmpty = false := by
    rw [hall]
    exact Bool.eq_false_iff.mpr (fun h => hnil (List.isEmpty_iff.mp h))
  refine ⟨hall, ?_⟩
  have hpt := processTarget_new_ok cfg env store hk hf hl hne
    (dispatchNew_ok hp cfg env target _).1
  rw [hpt]
  have hcalls : (Event.save target.id
      (savedState w { seen_ids := [], last_run := none } items)
      :: (dispatchNew cfg env w target
            (newItems { seen_ids := [], last_run := none } items)).1).filter Event.isCall
      = (dispatchNew cfg env w target
          (newItems { seen_ids := [], last_run := none } items)).1.filter Event.isCall := by
    simp [Event.isCall]
  rw [hcalls, (dispatchNew_ok hp cfg env target _).2, hall]

/-- C7 witness: the degraded-load path at a concrete missing-state target with
one fetched item. -/
theorem c7_witness :
    newItems { seen_ids := [], last_run := none } [itemI1] = [itemI1]
    ∧ (processTarget demoCfg demoEnv (okWorld [itemI1]) emptyStore demoTarget).events.filter
        Event.isCall
      = ([itemI1].take 3).map (itemCallEv demoTarget)
        ++ (if ([itemI1] : List Item).length > 3 then
              [Event.call (overflowHeadline demoTarget) (overflowBody [itemI1].length)
                overflowUrl]
            else []) :=
  (c7_missing_state_degrades).2.2 demoCfg demoEnv (okWorld [itemI1]) emptyStore demoTarget
    [itemI1] (by decide) rfl rfl (postsOk_okWorld _) (by decide)

/-- C6 counterexample: two new items, both destinations enabled and
configured, and a Slack webhook that rejects per-item payloads (the 🚨 ones).
Only one per-item `notify_all` call happens, no per-item Discord attempt is
ever made, and the per-target handler then emits the error notification: the
Slack failure does block the other destination and the remaining item. -/
theorem c6_counterexample :
    cfgOn.discord_enabled = true
    ∧ envOn.discord_url ≠ ""
    ∧ slackFailWorld.fetch demoTarget = .ok [itemI1, itemI2]
    ∧ (newItems { seen_ids := [], last_run := none } [itemI1, itemI2]).length = 2
    ∧ ((processTarget cfgOn envOn slackFailWorld emptyStore demoTarget).events.filter
        Event.isItemCall).length = 1
    ∧ (processTarget cfgOn envOn slackFailWorld emptyStore demoTarget).events.filter
        Event.isItemDiscord = []
    ∧ (processTarget cfgOn envOn slackFailWorld emptyStore demoTarget).events.filter
        Event.isCall
      = [itemCallEv demoTarget itemI1,
         Event.call (errHeadline demoTarget)
           (errBody "NOW" "rss" "500 Server Error") "u"] := by
  refine ⟨rfl, by decide, rfl, by decide, by decide, by decide, by decide⟩

/-- C6 (amended): `notify_all` has no per-destination error handling: when the
Slack POST for a message fails, the exception propagates — Discord is not
attempted for that message, and the per-item loop stops before any remaining
item. -/
theorem c6_sink_failure_blocks (cfg : Cfg) (env : Env) (w : World)
    (h b u e : String) (hs : cfg.slack_enabled = true) (hu : env.slack_url ≠ "")
    (hfail : w.slackPost (slackPayload h b u) = .error e) :
    notify_all cfg env w h b u
      = ([Event.call h b u, Event.slack (slackPayload h b u)], some e)
    ∧ ∀ (target : Target) (it : Item) (rest : List Item),
        itemHeadline target (importance_level it target).1 = h →
        itemBody (importance_level it target).2 it = b →
        safe_text it.url = u →
        notifyLoop cfg env w target (it :: rest)
          = ([Event.call h b u, Event.slack (slackPayload h b u)], some e) := by
  have hc : (cfg.slack_enabled && env.slack_url != "") = true := by
    simp [hs, hu]
  have hslack : trySlack cfg env w h b u = ([Event.slack (slackPayload h b u)], some e) := by
    unfold trySlack
    rw [if_pos hc, hfail]
  have hmain : notify_all cfg env w h b u
      = ([Event.call h b u, Event.slack (slackPayload h b u)], some e) := by
    unfold notify_all
    rw [hslack]
  refine ⟨hmain, ?_⟩
  intro target it rest h1 h2 h3
  simp only [notifyLoop]
  rw [h1, h2, h3, hmain]

/-- C6 witness: the blocking behaviour at the concrete failing-Slack world and
the first per-item message of the counterexample's target. -/
theorem c6_witness :
    notify_all cfgOn envOn slackFailWorld
        (itemHeadline demoTarget (importance_level itemI1 demoTarget).1)
        (itemBody (importance_level itemI1 demoTarget).2 itemI1)
        (safe_text itemI1.url)
      = ([Event.call (itemHeadline demoTarget (importance_level itemI1 demoTarget).1)
            (itemBody (importance_level itemI1 demoTarget).2 itemI1)
            (safe_text itemI1.url),
          Event.slack (slackPayload
            (itemHeadline demoTarget (importance_level itemI1 demoTarget).1)
            (itemBody (importance_level itemI1 demoTarget).2 itemI1)
            (safe_text itemI1.url))], some "500 Server Error")
    ∧ notifyLoop cfgOn envOn slackFailWorld demoTarget [itemI1, itemI2]
      = ([Event.call (itemHeadline demoTarget (importance_level itemI1 demoTarget).1)
            (itemBody (importance_level itemI1 demoTarget).2 itemI1)
            (safe_text itemI1.url),
          Event.slack (slackPayload
            (itemHeadline demoTarget (importance_level itemI1 demoTarget).1)
            (itemBody (importance_level itemI1 demoTarget).2 itemI1)
            (safe_text itemI1.url))], some "500 Server Error") := by
  have h := c6_sink_failure_blocks cfgOn envOn slackFailWorld
    (itemHeadline demoTarget (importance_level itemI1 demoTarget).1)
    (itemBody (importance_level itemI1 demoTarget).2 itemI1)
    (safe_text itemI1.url) "500 Server Error" rfl (by decide) rfl
  exact ⟨h.1, h.2 demoTarget itemI1 [itemI2] rfl rfl rfl⟩

set_option maxRecDepth 4000 in
/-- C8 counterexample: two feed entries without provider id, identical link
`http://x`, different titles — both get the same fallback id
`sha1("http://x")`: the fallback hashes `link or title`, not the pair
`(link, title)`. -/
theorem c8_counterexample :
    (fetch_rss [entryA, entryB] 20).map Item.id = [sha1 "http://x", sha1 "http://x"]
    ∧ safe_text entryA.title ≠ safe_text entryB.title := by
  exact ⟨rfl, by decide⟩

/-- C8 (amended): when a feed entry has no provider id, its id is
`sha1(link or title)`: the hash of the (normalized) link if it is non-empty,
else the hash of the title.  Consequently the fallback id is a deterministic
function of the entry, and two id-less entries with the same non-empty link
share the same id whatever their titles. -/
theorem c8_fallback_id (e : RawEntry) (he : safe_text e.id = "") :
    (rssItem e).id = sha1 (pyOr (safe_text e.link) (safe_text e.title))
    ∧ (safe_text e.link ≠ "" → (rssItem e).id = sha1 (safe_text e.link))
    ∧ (safe_text e.link = "" → (rssItem e).id = sha1 (safe_text e.title))
    ∧ (∀ e' : RawEntry, safe_text e'.id = "" →
        safe_text e'.link = safe_text e.link → safe_text e.link ≠ "" →
        (rssItem e').id = (rssItem e).id) := by
  have key : ∀ e'' : RawEntry, safe_text e''.id = "" →
      (rssItem e'').id = sha1 (pyOr (safe_text e''.link) (safe_text e''.title)) := by
    intro e'' h''
    simp [rssItem, pyOr, h'']
  refine ⟨key e he, ?_, ?_, ?_⟩
  · intro hl
    rw [key e he]
    congr 1
    simp [pyOr, hl]
  · intro hl
    rw [key e he]
    congr 1
    simp [pyOr, hl]
  · intro e' he' hlink hl
    rw [key e' he', key e he, hlink]
    congr 1
    simp [pyOr, hl]

/-- C8 witness: the fallback-id facts evaluated at the concrete entry
`entryA` (empty provider id, link `http://x`). -/
theorem c8_witness :
    (rssItem entryA).id = sha1 (pyOr (safe_text entryA.link) (safe_text entryA.title))
    ∧ (safe_text entryA.link ≠ ""
        → (rssItem entryA).id = sha1 (safe_text entryA.link))
    ∧ (safe_text entryA.link = ""
        → (rssItem entryA).id = sha1 (safe_text entryA.title))
    ∧ (∀ e' : RawEntry, safe_text e'.id = "" →
        safe_text e'.link = safe_text entryA.link → safe_text entryA.link ≠ "" →
        (rssItem e').id = (rssItem entryA).id) :=
  c8_fallback_id entryA (by decide)

/-- C2 counterexample: the source builds `merged` from `list(seen)` where
`seen` is a Python `set`, so the carried-over prior ids appear in set
iteration order, not stored order.  With stored `seen_ids = ["a","b"]`, fetch
`["c"]` and the (possible) iteration order `["b","a"]`, the saved list is
`["c","b","a"]`, not the claimed `["c","a","b"]`. -/
theorem c2_counterexample :
    SetOrderValid revWorld
    ∧ revWorld.setOrder ["a", "b"] = ["b", "a"]
    ∧ (processTarget demoCfg demoEnv revWorld abStore demoTarget).store demoTarget.id
        = StoredFile.valid { seen_ids := ["c", "b", "a"], last_run := some "NOW" }
    ∧ (dedupLoop [] ([mkItem "c"].map Item.id ++ ["a", "b"])).take 300 = ["c", "a", "b"]
    ∧ (["c", "b", "a"] : List String) ≠ ["c", "a", "b"] := by
  refine ⟨?_, by decide, by decide, by decide, by decide⟩
  intro xs
  constructor
  · rw [show revWorld.setOrder xs = (dedupLoop [] xs).reverse from rfl, List.nodup_reverse]
    exact nodup_dedupLoop xs [] List.nodup_nil
  · intro x
    rw [show revWorld.setOrder xs = (dedupLoop [] xs).reverse from rfl, List.mem_reverse]
    exact ⟨fun hx => (mem_of_mem_dedupLoop hx).resolve_left (List.not_mem_nil x),
      mem_dedupLoop_of_mem []⟩

/-- C2 (amended): after a cycle with new items, the saved `seen_ids` is the
fetched ids in fetch order followed by the prior ids in *set-iteration* order,
first-occurrence-deduplicated and truncated to 300; it is duplicate-free, has
length ≤ 300, and (for a valid set order) contains only fetched or prior ids.
Scenario B still holds exactly: from `seen_ids = [X]` and fetch `[X, Y]` the
saved list is `[X, Y]` and exactly one notification is invoked. -/
theorem c2_update_policy :
    (∀ (cfg : Cfg) (env : Env) (w : World) (store : String → StoredFile)
        (target : Target) (items : List Item) (st : PyState),
      knownKind target.kind = true → w.fetch target = .ok items →
      load_state (store target.id) = .ok st →
      (newItems st items).isEmpty = false →
      (processTarget cfg env w store target).store target.id
          = StoredFile.valid (savedState w st items)
      ∧ (savedState w st items).seen_ids
          = (dedupLoop [] (items.map Item.id ++ w.setOrder st.seen_ids)).take 300
      ∧ (savedState w st items).seen_ids.length ≤ 300
      ∧ (savedState w st items).seen_ids.Nodup
      ∧ (SetOrderValid w →
          ∀ x ∈ (savedState w st items).seen_ids,
            x ∈ items.map Item.id ∨ x ∈ st.seen_ids))
    ∧ (∀ (cfg : Cfg) (env : Env) (w : World) (store : String → StoredFile)
        (target : Target) (it1 it2 : Item) (X Y : String) (lr : Option String),
      SetOrderValid w → PostsOk w → X ≠ Y →
      knownKind target.kind = true → w.fetch target = .ok [it1, it2] →
      it1.id = X → it2.id = Y →
      load_state (store target.id) = .ok { seen_ids := [X], last_run := lr } →
      (savedState w { seen_ids := [X], last_run := lr } [it1, it2]).seen_ids = [X, Y]
      ∧ (processTarget cfg env w store target).store target.id
          = StoredFile.valid { seen_ids := [X, Y], last_run := some w.now }
      ∧ ((processTarget cfg env w store target).events.filter Event.isCall).length = 1) := by
  constructor
  · intro cfg env w store target items st hk hf hl hne
    have hstore : (processTarget cfg env w store target).store
        = updStore store target.id (savedState w st items) := by
      cases hd : (dispatchNew cfg env w target (newItems st items)).2 with
      | none => rw [processTarget_new_ok cfg env store hk hf hl hne hd]
      | some e => rw [processTarget_new_err cfg env store hk hf hl hne hd]
    refine ⟨?_, rfl, ?_, ?_, ?_⟩
    · rw [hstore]
      simp [updStore]
    · exact List.length_take_le 300 _
    · exact ((nodup_dedupLoop _ [] List.nodup_nil).sublist (List.take_sublist 300 _))
    · intro hv x hx
      have hx' : x ∈ dedupLoop [] (items.map Item.id ++ w.setOrder st.seen_ids) :=
        List.take_subset 300 _ hx
      rcases mem_of_mem_dedupLoop hx' with h' | h'
      · cases h'
      · rcases List.mem_append.mp h' with h'' | h''
        · exact Or.inl h''
        · exact Or.inr (((hv st.seen_ids).2 x).mp h'')
  · intro cfg env w store target it1 it2 X Y lr hv hp hXY hk hf h1 h2 hl
    have hσ : w.setOrder [X] = [X] := setOrder_singleton hv X
    have hc1 : ([X].contains it1.id) = true := by simp [h1]
    have hc2 : ([X].contains it2.id) = false := by simp [h2, Ne.symm hXY]
    have hnew : newItems { seen_ids := [X], last_run := lr } [it1, it2] = [it2] := by
      simp [newItems, h1, h2, Ne.symm hXY]
    have hne : (newItems { seen_ids := [X], last_run := lr } [it1, it2]).isEmpty = false := by
      rw [hnew]
      rfl
    have hdedup : dedupLoop [] ([X, Y] ++ [X]) = [X, Y] := by
      have e1 : ¬ (([] : List String).contains X = true) := by simp
      have e2 : ¬ (([X].contains Y) = true) := by simp [Ne.symm hXY]
      have e3 : ([X, Y].contains X) = true := by simp
      rw [show ([X, Y] ++ [X] : List String) = X :: Y :: X :: [] from rfl,
        dedupLoop_cons, if_neg e1, List.nil_append, dedupLoop_cons, if_neg e2,
        show ([X] ++ [Y] : List String) = [X, Y] from rfl, dedupLoop_cons, if_pos e3]
      rfl
    have hseen : (savedState w { seen_ids := [X], last_run := lr } [it1, it2]).seen_ids
        = [X, Y] := by
      unfold savedState
      dsimp only
      rw [show ([it1, it2].map Item.id) = [X, Y] from by simp [h1, h2], hσ, hdedup]
      exact List.take_of_length_le (by simp)
    have hpt := processTarget_new_ok cfg env store hk hf hl hne
      (dispatchNew_ok hp cfg env target _).1
    refine ⟨hseen, ?_, ?_⟩
    · rw [hpt]
      have : savedState w { seen_ids := [X], last_run := lr } [it1, it2]
          = { seen_ids := [X, Y], last_run := some w.now } := by
        cases hst : savedState w { seen_ids := [X], last_run := lr } [it1, it2] with
        | mk s l =>
          have hs := hseen
          rw [hst] at hs
          simp only at hs
          rw [hs]
          have hlast : (savedState w { seen_ids := [X], last_run := lr } [it1, it2]).last_run
              = some w.now := rfl
          rw [hst] at hlast
          simp only at hlast
          rw [hlast]
      rw [← this]
      simp [updStore]
    · rw [hpt]
      have hcalls : (Event.save target.id
          (savedState w { seen_ids := [X], last_run := lr } [it1, it2])
          :: (dispatchNew cfg env w target
              (newItems { seen_ids := [X], last_run := lr } [it1, it2])).1).filter
            Event.isCall
          = (dispatchNew cfg env w target
              (newItems { seen_ids := [X], last_run := lr } [it1, it2])).1.filter
              Event.isCall := by
        simp [Event.isCall]
      rw [hcalls, (dispatchNew_ok hp cfg env target _).2, hnew]
      rfl

/-- C2 witness: the amended update policy evaluated concretely — the general
part at the reversed-set-order world with prior `["a","b"]` and fetch `["c"]`,
and Scenario B at prior `["p"]` with fetch ids `["p","q"]`. -/
theorem c2_witness :
    ((processTarget demoCfg demoEnv revWorld abStore demoTarget).store demoTarget.id
        = StoredFile.valid
            (savedState revWorld { seen_ids := ["a", "b"], last_run := none } [mkItem "c"])
      ∧ (savedState revWorld { seen_ids := ["a", "b"], last_run := none }
          [mkItem "c"]).seen_ids
        = (dedupLoop [] ([mkItem "c"].map Item.id
            ++ revWorld.setOrder ["a", "b"])).take 300
      ∧ (savedState revWorld { seen_ids := ["a", "b"], last_run := none }
          [mkItem "c"]).seen_ids.length ≤ 300
      ∧ (savedState revWorld { seen_ids := ["a", "b"], last_run := none }
          [mkItem "c"]).seen_ids.Nodup
      ∧ (SetOrderValid revWorld →
          ∀ x ∈ (savedState revWorld { seen_ids := ["a", "b"], last_run := none }
              [mkItem "c"]).seen_ids,
            x ∈ [mkItem "c"].map Item.id ∨ x ∈ (["a", "b"] : List String)))
    ∧ ((savedState (okWorld [mkItem "p", mkItem "q"])
          { seen_ids := ["p"], last_run := none } [mkItem "p", mkItem "q"]).seen_ids
        = ["p", "q"]
      ∧ (processTarget demoCfg demoEnv (okWorld [mkItem "p", mkItem "q"])
          (fun t => if t == "t1" then
              StoredFile.valid { seen_ids := ["p"], last_run := none }
            else StoredFile.missing)
          demoTarget).store demoTarget.id
        = StoredFile.valid { seen_ids := ["p", "q"], last_run := some "NOW" }
      ∧ ((processTarget demoCfg demoEnv (okWorld [mkItem "p", mkItem "q"])
          (fun t => if t == "t1" then
              StoredFile.valid { seen_ids := ["p"], last_run := none }
            else StoredFile.missing)
          demoTarget).events.filter Event.isCall).length = 1) := by
  constructor
  · exact (c2_update_policy).1 demoCfg demoEnv revWorld abStore demoTarget [mkItem "c"]
      { seen_ids := ["a", "b"], last_run := none } (by decide) rfl rfl (by decide)
  · exact (c2_update_policy).2 demoCfg demoEnv (okWorld [mkItem "p", mkItem "q"])
      (fun t => if t == "t1" then
          StoredFile.valid { seen_ids := ["p"], last_run := none }
        else StoredFile.missing)
      demoTarget (mkItem "p") (mkItem "q") "p" "q" none
      (setOrderValid_canonical _ rfl) (postsOk_okWorld _) (by decide)
      (by decide) rfl rfl rfl rfl

/-- C1 (amended): with an unchanged upstream response that fetches at most
300 items and a readable stored state, processing the same target twice emits
nothing on the second run (every fetched id is already in the saved
`seen_ids`) and does not rewrite the state.  The 300-item proviso is forced:
see the counterexample with 301 distinct fetched ids. -/
theorem c1_second_run_silent (cfg : Cfg) (env : Env) (w : World)
    (store : String → StoredFile) (target : Target) (items : List Item)
    (hf : w.fetch target = .ok items)
    (hread : (store target.id).isCorrupt = false)
    (hlen : items.length ≤ 300) :
    (processTarget cfg env w (processTarget cfg env w store target).store target).events
      = []
    ∧ (processTarget cfg env w (processTarget cfg env w store target).store target).store
      = (processTarget cfg env w store target).store := by
  by_cases hk : knownKind target.kind = true
  · obtain ⟨st, hl⟩ := load_state_ok_of_not_corrupt _ hread
    cases hne : (newItems st items).isEmpty with
    | true =>
      rw [processTarget_no_new cfg env store hk hf hl hne]
      rw [processTarget_no_new cfg env store hk hf hl hne]
      exact ⟨rfl, rfl⟩
    | false =>
      have hstore1 : (processTarget cfg env w store target).store
          = updStore store target.id (savedState w st items) := by
        cases hd : (dispatchNew cfg env w target (newItems st items)).2 with
        | none => rw [processTarget_new_ok cfg env store hk hf hl hne hd]
        | some e => rw [processTarget_new_err cfg env store hk hf hl hne hd]
      have hl2 : load_state ((updStore store target.id (savedState w st items)) target.id)
          = .ok (savedState w st items) := by
        simp [updStore, load_state]
      have hmem : ∀ it ∈ items, it.id ∈ (savedState w st items).seen_ids := by
        intro it hit
        have hd : (dedupLoop [] (items.map Item.id)).length ≤ 300 := by
          have h1 := length_dedupLoop_le (items.map Item.id) []
          simp only [List.length_nil, Nat.zero_add, List.length_map] at h1
          omega
        exact mem_take_dedup _ (List.mem_map_of_mem Item.id hit) hd
      have hne2 : (newItems (savedState w st items) items).isEmpty = true := by
        rw [newItems, List.isEmpty_iff, List.filter_eq_nil_iff]
        intro it hit
        simp [hmem it hit]
      rw [hstore1, processTarget_no_new cfg env _ hk hf hl2 hne2]
      exact ⟨rfl, rfl⟩
  · have hkf : knownKind target.kind = false := by
      revert hk
      cases knownKind target.kind <;> simp
    rw [processTarget_unknown cfg env w store hkf]
    rw [processTarget_unknown cfg env w store hkf]
    exact ⟨rfl, rfl⟩

/-- C1 witness: the second-run silence at a concrete one-item fetch from an
empty store. -/
theorem c1_witness :
    (processTarget demoCfg demoEnv (okWorld [itemI1])
        (processTarget demoCfg demoEnv (okWorld [itemI1]) emptyStore demoTarget).store
        demoTarget).events = []
    ∧ (processTarget demoCfg demoEnv (okWorld [itemI1])
        (processTarget demoCfg demoEnv (okWorld [itemI1]) emptyStore demoTarget).store
        demoTarget).store
      = (processTarget demoCfg demoEnv (okWorld [itemI1]) emptyStore demoTarget).store :=
  c1_second_run_silent demoCfg demoEnv (okWorld [itemI1]) emptyStore demoTarget [itemI1]
    rfl rfl (by decide)

set_option maxRecDepth 8000 in
/-- C1 counterexample: with 301 distinct fetched ids the first run's save
truncates `seen_ids` to 300 entries, evicting a freshly fetched id, so an
identical second run still finds a new item and emits notifications — the
claimed unconditional idempotence fails. -/
theorem c1_counterexample :
    (processTarget demoCfg demoEnv bigWorld
        (processTarget demoCfg demoEnv bigWorld emptyStore demoTarget).store
        demoTarget).events ≠ [] := by
  have hk : knownKind demoTarget.kind = true := by decide
  have hf : bigWorld.fetch demoTarget = .ok bigItems := rfl
  have hl : load_state (emptyStore demoTarget.id)
      = .ok { seen_ids := [], last_run := none } := rfl
  have hp : PostsOk bigWorld := postsOk_okWorld _
  have hinj : Function.Injective uId := by
    intro i j h
    have h2 := congrArg (fun s => s.data.length) h
    simpa [uId] using h2
  have hids : bigItems.map Item.id = (List.range 301).map uId := by
    simp only [bigItems, List.map_map]
    rfl
  have hnodup : (bigItems.map Item.id).Nodup := by
    rw [hids]
    exact List.Nodup.map hinj (List.nodup_range 301)
  have hall : newItems { seen_ids := [], last_run := none } bigItems = bigItems := by
    simp [newItems]
  have hbig_ne : bigItems ≠ [] := by
    simp [bigItems]
  have hne : (newItems { seen_ids := [], last_run := none } bigItems).isEmpty = false := by
    rw [hall]
    exact Bool.eq_false_iff.mpr (fun h => hbig_ne (List.isEmpty_iff.mp h))
  have hseen : (savedState bigWorld { seen_ids := [], last_run := none } bigItems).seen_ids
      = (List.range 300).map uId := by
    unfold savedState
    dsimp only
    rw [show bigWorld.setOrder [] = [] from rfl, List.append_nil,
      dedupLoop_eq_append _ [] hnodup (by simp), List.nil_append, hids,
      ← List.map_take]
    congr 1
  have hstore1 : (processTarget demoCfg demoEnv bigWorld emptyStore demoTarget).store
      = updStore emptyStore demoTarget.id
          (savedState bigWorld { seen_ids := [], last_run := none } bigItems) := by
    rw [processTarget_new_ok demoCfg demoEnv emptyStore hk hf hl hne
      (dispatchNew_ok hp demoCfg demoEnv demoTarget _).1]
  have hl2 : load_state ((updStore emptyStore demoTarget.id
        (savedState bigWorld { seen_ids := [], last_run := none } bigItems))
        demoTarget.id)
      = .ok (savedState bigWorld { seen_ids := [], last_run := none } bigItems) := by
    simp [updStore, load_state]
  have h300 : mkItem (uId 300) ∈ bigItems := by
    exact List.mem_map_of_mem _ (List.mem_range.mpr (by omega))
  have hnotin : uId 300 ∉ (savedState bigWorld
      { seen_ids := [], last_run := none } bigItems).seen_ids := by
    rw [hseen]
    intro hmem
    obtain ⟨i, hi, hEq⟩ := List.mem_map.mp hmem
    have hi300 : i = 300 := hinj hEq
    rw [hi300] at hi
    exact absurd (List.mem_range.mp hi) (by omega)
  have hmem2 : mkItem (uId 300) ∈ newItems
      (savedState bigWorld { seen_ids := [], last_run := none } bigItems) bigItems := by
    rw [newItems, List.mem_filter]
    refine ⟨h300, ?_⟩
    simp [mkItem, hnotin]
  have hne2 : (newItems (savedState bigWorld { seen_ids := [], last_run := none } bigItems)
      bigItems).isEmpty = false := by
    refine Bool.eq_false_iff.mpr (fun habs => ?_)
    rw [List.isEmpty_iff.mp habs] at hmem2
    exact List.not_mem_nil _ hmem2
  rw [hstore1, processTarget_new_ok demoCfg demoEnv _ hk hf hl2 hne2
    (dispatchNew_ok hp demoCfg demoEnv demoTarget _).1]
  exact List.cons_ne_nil _ _
